import Mathlib

/-!
# Verification of `gtsam/navigation/ImuFactor.cpp`

A shallow embedding of the IMU preintegration code in
`src/gtsam/navigation/ImuFactor.cpp`.  Machine doubles are modelled as
exact rationals (`ℚ`); fixed-size Eigen matrices become Mathlib matrices
over `Fin 3` and over the 9-dimensional index `Fin 3 ⊕ Fin 3 ⊕ Fin 3`
(position block, velocity block, rotation block — the block layout used
by the 9×9 matrices of the source).

The SO(3) helper functions (`Rot3::Expmap`, `Rot3::Logmap`,
`Rot3::rightJacobianExpMapSO3`, `Rot3::rightJacobianExpMapSO3inverse`)
are transcendental (Rodrigues formulas) and live outside the translated
file; they are abstracted as a bundle `SO3Ops` carrying exactly the
algebraic facts the spec states about them: the exponential map sends
the zero rotation vector to the identity rotation, and
`rightJacobianExpMapSO3inverse` is a left inverse of
`rightJacobianExpMapSO3`.  All theorems quantify over an arbitrary such
bundle; concrete evaluations instantiate it with `trivialOps`, which
agrees with the real functions on every argument actually reached
(every trajectory used for evaluation has zero angular velocity, so all
rotation quantities are exactly the identity).
-/

namespace ImuFactorSpec

open Matrix

/-- 3-vectors (`gtsam::Vector3`), with exact rational entries. -/
abbrev V3 := Fin 3 → ℚ

/-- 3×3 matrices (`gtsam::Matrix3`). -/
abbrev M3 := Matrix (Fin 3) (Fin 3) ℚ

/-- Index of the 9-dimensional preintegration error state, split into its
position / velocity / rotation blocks. -/
abbrev I9 := Fin 3 ⊕ Fin 3 ⊕ Fin 3

/-- 9×9 matrices (the `Matrix(9,9)` objects of the source). -/
abbrev M9 := Matrix I9 I9 ℚ

/-- 9-vectors over the error-state index. -/
abbrev V9 := I9 → ℚ

/-- Modelled from the spec: the skew-symmetric operator
(`gtsam::skewSymmetric`, a manifold-math helper not under `src/`):
`skewSymmetric w` is the matrix of the cross product `w ×ᵥ ·`. -/
def skewSymmetric (w : V3) : M3 :=
  Matrix.of fun i j =>
    !![0, -(w 2), w 1; w 2, 0, -(w 0); -(w 1), w 0, 0] i j

/-- A 9×9 matrix assembled from nine 3×3 blocks, mirroring the
`block<3,3>(·,·)` writes and the `<<` comma-initialisation of the
source (row blocks: position, velocity, rotation). -/
def blocks33 (B00 B01 B02 B10 B11 B12 B20 B21 B22 : M3) : M9 :=
  Matrix.fromBlocks B00 (Matrix.fromColumns B01 B02)
    (Matrix.fromRows B10 B20) (Matrix.fromBlocks B11 B12 B21 B22)

/-- A fixed sensor-to-body rigid transform (`gtsam::Pose3`), as a
rotation matrix and a translation vector. -/
structure Pose3 where
  rotation : M3
  translation : V3

/-- The SO(3) helper operations of `gtsam::Rot3`, abstracted.  The two
propositional fields are the spec's algebraic facts about them: the
exponential map of the zero vector is the identity rotation, and the
inverse right Jacobian inverts the right Jacobian. -/
structure SO3Ops where
  Expmap : V3 → M3
  Logmap : M3 → V3
  rightJacobian : V3 → M3
  rightJacobianInv : V3 → M3
  Expmap_zero : Expmap 0 = 1
  rightJacobianInv_mul : ∀ v : V3, rightJacobianInv v * rightJacobian v = 1

/-- A concrete `SO3Ops` bundle agreeing with the real Rodrigues formulas
at the zero rotation vector and the identity rotation (the only points
reached by the zero-angular-velocity trajectories evaluated below). -/
def trivialOps : SO3Ops where
  Expmap := fun _ => 1
  Logmap := fun _ => 0
  rightJacobian := fun _ => 1
  rightJacobianInv := fun _ => 1
  Expmap_zero := rfl
  rightJacobianInv_mul := fun _ => one_mul 1

/-- The state owned by `PreintegrationBase` (declared in headers outside
`src/`): the bias snapshot, the integration-mode flag, the accumulated
deltas and the bias-sensitivity Jacobians. -/
@[ext]
structure PreintegrationBaseState where
  biasHatAcc : V3
  biasHatOmega : V3
  use2ndOrderIntegration : Bool
  deltaRij : M3
  deltaVij : V3
  deltaPij : V3
  deltaTij : ℚ
  delPdelBiasAcc : M3
  delPdelBiasOmega : M3
  delVdelBiasAcc : M3
  delVdelBiasOmega : M3
  delRdelBiasOmega : M3

/-- Modelled from the spec: `PreintegrationBase::resetIntegration`
(called by `ImuFactor.cpp:63`, body not under `src/`).  Spec §4.1:
clears the preintegrated deltas to the identity (zero rotation, zero
velocity, zero position) and the bias-Jacobians to zero. -/
def PreintegrationBaseState.resetIntegration (s : PreintegrationBaseState) :
    PreintegrationBaseState :=
  { s with
    deltaRij := 1, deltaVij := 0, deltaPij := 0, deltaTij := 0,
    delPdelBiasAcc := 0, delPdelBiasOmega := 0, delVdelBiasAcc := 0,
    delVdelBiasOmega := 0, delRdelBiasOmega := 0 }

/-- Modelled from the spec: the freshly constructed base state
(`PreintegrationBase` constructor, not under `src/`) — identity deltas
and zero Jacobians, i.e. the reset state with the given bias snapshot. -/
def mkBaseState (biasAcc biasOmega : V3) (use2nd : Bool) :
    PreintegrationBaseState :=
  { biasHatAcc := biasAcc, biasHatOmega := biasOmega,
    use2ndOrderIntegration := use2nd,
    deltaRij := 1, deltaVij := 0, deltaPij := 0, deltaTij := 0,
    delPdelBiasAcc := 0, delPdelBiasOmega := 0, delVdelBiasAcc := 0,
    delVdelBiasOmega := 0, delRdelBiasOmega := 0 }

/-- Modelled from the spec:
`PreintegrationBase::correctMeasurementsByBiasAndSensorPose` (called at
`ImuFactor.cpp:77`, body not under `src/`).  Spec §4.1 step 1: subtract
the bias snapshot; when a sensor-to-body transform is supplied, rotate
the angular velocity into the body frame and apply the lever-arm
(centripetal) correction to the linear acceleration. -/
def correctMeasurements (s : PreintegrationBaseState)
    (measuredAcc measuredOmega : V3) (body_P_sensor : Option Pose3) :
    V3 × V3 :=
  let accB := measuredAcc - s.biasHatAcc
  let omegaB := measuredOmega - s.biasHatOmega
  match body_P_sensor with
  | none => (accB, omegaB)
  | some p =>
      let omega := p.rotation.mulVec omegaB
      let acc := p.rotation.mulVec accB -
        (skewSymmetric omega * skewSymmetric omega).mulVec p.translation
      (acc, omega)

/-- Modelled from the spec:
`PreintegrationBase::updatePreintegratedJacobians` (called at
`ImuFactor.cpp:85`, body not under `src/`).  Spec §4.1 step 3: the
bias-sensitivity recursions, consuming the pre-advance rotation delta
`deltaRij`, the rotation increment and its right Jacobian; each
increment carries a factor of `deltaT`.  `incrR.inverse().matrix()` is
the transpose, rotations being orthogonal. -/
def updatePreintegratedJacobians (s : PreintegrationBaseState)
    (correctedAcc : V3) (Jr_theta_incr incrR : M3) (deltaT : ℚ) :
    PreintegrationBaseState :=
  let dRij := s.deltaRij
  { s with
    delPdelBiasAcc := s.delPdelBiasAcc + deltaT • s.delVdelBiasAcc -
      (if s.use2ndOrderIntegration then (deltaT * deltaT / 2) • dRij else 0),
    delPdelBiasOmega := s.delPdelBiasOmega + deltaT • s.delVdelBiasOmega -
      (if s.use2ndOrderIntegration then
        (deltaT * deltaT / 2) •
          (dRij * skewSymmetric correctedAcc * s.delRdelBiasOmega) else 0),
    delVdelBiasAcc := s.delVdelBiasAcc - deltaT • dRij,
    delVdelBiasOmega := s.delVdelBiasOmega -
      deltaT • (dRij * skewSymmetric correctedAcc * s.delRdelBiasOmega),
    delRdelBiasOmega :=
      incrR.transpose * s.delRdelBiasOmega - deltaT • Jr_theta_incr }

/-- Modelled from the spec:
`PreintegrationBase::updatePreintegratedMeasurements` (called at
`ImuFactor.cpp:96`, body not under `src/`).  Spec §4.1 step 4:
`deltaRij ← deltaRij ∘ increment` (manifold composition),
`deltaVij ← deltaVij + deltaRij · correctedAcc · Δt`,
`deltaPij ← deltaPij + deltaVij · Δt` plus, when second-order
integration is enabled, `½ · deltaRij · correctedAcc · Δt²`; the elapsed
time accumulates. -/
def updatePreintegratedMeasurements (s : PreintegrationBaseState)
    (correctedAcc : V3) (incrR : M3) (deltaT : ℚ) :
    PreintegrationBaseState :=
  { s with
    deltaPij := s.deltaPij + deltaT • s.deltaVij +
      (if s.use2ndOrderIntegration then
        (deltaT * deltaT / 2) • s.deltaRij.mulVec correctedAcc else 0),
    deltaVij := s.deltaVij + deltaT • s.deltaRij.mulVec correctedAcc,
    deltaRij := s.deltaRij * incrR,
    deltaTij := s.deltaTij + deltaT }

/-- The state owned by `ImuFactor::PreintegratedMeasurements`
(`ImuFactor.cpp:34-45`): the base state plus the fixed process-noise
matrix `measurementCovariance_` and the propagated 9×9 covariance
`preintMeasCov_`. -/
@[ext]
structure PreintegratedMeasurements where
  base : PreintegrationBaseState
  measurementCovariance : M9
  preintMeasCov : M9

/-- The constructor `ImuFactor::PreintegratedMeasurements::
PreintegratedMeasurements` (`ImuFactor.cpp:34-45`): zero
`measurementCovariance_` with the integration-error covariance written
into block (0,0), the accelerometer-noise covariance into block (3,3)
and the gyroscope-noise covariance into block (6,6); zero
`preintMeasCov_`. -/
def mkPreintegratedMeasurements (biasAcc biasOmega : V3)
    (measuredAccCovariance measuredOmegaCovariance
      integrationErrorCovariance : M3) (use2ndOrderIntegration : Bool) :
    PreintegratedMeasurements :=
  { base := mkBaseState biasAcc biasOmega use2ndOrderIntegration,
    measurementCovariance :=
      blocks33 integrationErrorCovariance 0 0
               0 measuredAccCovariance 0
               0 0 measuredOmegaCovariance,
    preintMeasCov := 0 }

/-- `ImuFactor::PreintegratedMeasurements::resetIntegration`
(`ImuFactor.cpp:62-65`): reset the base state and zero
`preintMeasCov_`. -/
def PreintegratedMeasurements.resetIntegration
    (s : PreintegratedMeasurements) : PreintegratedMeasurements :=
  { s with base := s.base.resetIntegration, preintMeasCov := 0 }

/-! ## `integrateMeasurement` (`ImuFactor.cpp:68-143`)

The body is decomposed into named intermediate definitions, one per
local variable of the source, in source order:
corrected measurements (line 77), `theta_incr` / `Rincr` /
`Jr_theta_incr` (lines 79-81), the bias-Jacobian update (line 85), the
pre-advance linearization point `theta_i` / `R_i` / `Jr_theta_i`
(lines 90-92), the delta advance (line 96), the post-advance
`theta_j` / `Jrinv_theta_j` (lines 98-99), the transition matrix `F`
(lines 101-121), the covariance update (line 127), and the optional
outputs `Fout` / `Gout` (lines 129-142). -/

/-- Line 77: bias- and sensor-pose-corrected acceleration. -/
def correctedAccOf (s : PreintegratedMeasurements)
    (measuredAcc measuredOmega : V3) (body_P_sensor : Option Pose3) : V3 :=
  (correctMeasurements s.base measuredAcc measuredOmega body_P_sensor).1

/-- Line 77: bias- and sensor-pose-corrected angular velocity. -/
def correctedOmegaOf (s : PreintegratedMeasurements)
    (measuredAcc measuredOmega : V3) (body_P_sensor : Option Pose3) : V3 :=
  (correctMeasurements s.base measuredAcc measuredOmega body_P_sensor).2

/-- Line 79: `theta_incr = correctedOmega * deltaT`. -/
def thetaIncrOf (s : PreintegratedMeasurements)
    (measuredAcc measuredOmega : V3) (deltaT : ℚ)
    (body_P_sensor : Option Pose3) : V3 :=
  deltaT • correctedOmegaOf s measuredAcc measuredOmega body_P_sensor

/-- Line 80: `Rincr = Rot3::Expmap(theta_incr)`. -/
def RincrOf (ops : SO3Ops) (s : PreintegratedMeasurements)
    (measuredAcc measuredOmega : V3) (deltaT : ℚ)
    (body_P_sensor : Option Pose3) : M3 :=
  ops.Expmap (thetaIncrOf s measuredAcc measuredOmega deltaT body_P_sensor)

/-- Line 81: `Jr_theta_incr = Rot3::rightJacobianExpMapSO3(theta_incr)`. -/
def JrThetaIncrOf (ops : SO3Ops) (s : PreintegratedMeasurements)
    (measuredAcc measuredOmega : V3) (deltaT : ℚ)
    (body_P_sensor : Option Pose3) : M3 :=
  ops.rightJacobian
    (thetaIncrOf s measuredAcc measuredOmega deltaT body_P_sensor)

/-- Line 85: the base state after `updatePreintegratedJacobians`. -/
def baseAfterJacobians (ops : SO3Ops) (s : PreintegratedMeasurements)
    (measuredAcc measuredOmega : V3) (deltaT : ℚ)
    (body_P_sensor : Option Pose3) : PreintegrationBaseState :=
  updatePreintegratedJacobians s.base
    (correctedAccOf s measuredAcc measuredOmega body_P_sensor)
    (JrThetaIncrOf ops s measuredAcc measuredOmega deltaT body_P_sensor)
    (RincrOf ops s measuredAcc measuredOmega deltaT body_P_sensor) deltaT

/-- Line 96: the base state after `updatePreintegratedMeasurements`
(the deltas advanced). -/
def baseAfterMeasurements (ops : SO3Ops) (s : PreintegratedMeasurements)
    (measuredAcc measuredOmega : V3) (deltaT : ℚ)
    (body_P_sensor : Option Pose3) : PreintegrationBaseState :=
  updatePreintegratedMeasurements
    (baseAfterJacobians ops s measuredAcc measuredOmega deltaT body_P_sensor)
    (correctedAccOf s measuredAcc measuredOmega body_P_sensor)
    (RincrOf ops s measuredAcc measuredOmega deltaT body_P_sensor) deltaT

/-- Lines 101-121: the overall transition matrix `F` from its nine
blocks, given the linearization data `R_i`, `Jr_theta_i` (pre-advance),
`Jrinv_theta_j` (post-advance), the rotation increment and the corrected
acceleration. -/
def transitionF (R_i Jr_theta_i Jrinv_theta_j Rincr : M3)
    (correctedAcc : V3) (deltaT : ℚ) : M9 :=
  blocks33 1 (deltaT • (1 : M3)) 0
           0 1 (-(deltaT • (R_i * skewSymmetric correctedAcc * Jr_theta_i)))
           0 0 (Jrinv_theta_j * Rincr.transpose * Jr_theta_i)

/-- The transition matrix `F` actually assembled by a call
(`ImuFactor.cpp:117-121`): `R_i` and `Jr_theta_i` are taken at the
state reached after line 85 (whose `deltaRij` is the pre-advance one),
`Jrinv_theta_j` at the state after line 96. -/
def usedF (ops : SO3Ops) (s : PreintegratedMeasurements)
    (measuredAcc measuredOmega : V3) (deltaT : ℚ)
    (body_P_sensor : Option Pose3) : M9 :=
  let b1 := baseAfterJacobians ops s measuredAcc measuredOmega deltaT
    body_P_sensor
  let b2 := baseAfterMeasurements ops s measuredAcc measuredOmega deltaT
    body_P_sensor
  transitionF b1.deltaRij (ops.rightJacobian (ops.Logmap b1.deltaRij))
    (ops.rightJacobianInv (ops.Logmap b2.deltaRij))
    (RincrOf ops s measuredAcc measuredOmega deltaT body_P_sensor)
    (correctedAccOf s measuredAcc measuredOmega body_P_sensor) deltaT

/-- Lines 134-141: the noise-mapping matrix `Gout`. -/
def usedG (ops : SO3Ops) (s : PreintegratedMeasurements)
    (measuredAcc measuredOmega : V3) (deltaT : ℚ)
    (body_P_sensor : Option Pose3) : M9 :=
  let b1 := baseAfterJacobians ops s measuredAcc measuredOmega deltaT
    body_P_sensor
  let b2 := baseAfterMeasurements ops s measuredAcc measuredOmega deltaT
    body_P_sensor
  blocks33 (deltaT • (1 : M3)) 0 0
           0 (deltaT • b1.deltaRij) 0
           0 0 (deltaT • (ops.rightJacobianInv (ops.Logmap b2.deltaRij) *
             JrThetaIncrOf ops s measuredAcc measuredOmega deltaT
               body_P_sensor))

/-- `ImuFactor::PreintegratedMeasurements::integrateMeasurement`
(`ImuFactor.cpp:68-143`).  The boolean flags model whether the caller
supplied the optional output slots `Fout` / `Gout`; the first component
is the mutated object, the second and third the written slots (`none`
when the slot was absent and the assignment skipped).  The covariance
update is line 127:
`preintMeasCov_ = F * preintMeasCov_ * F.transpose() +
measurementCovariance_ * deltaT`. -/
def integrateMeasurement (ops : SO3Ops) (s : PreintegratedMeasurements)
    (measuredAcc measuredOmega : V3) (deltaT : ℚ)
    (body_P_sensor : Option Pose3) (wantFout wantGout : Bool) :
    PreintegratedMeasurements × Option M9 × Option M9 :=
  let F := usedF ops s measuredAcc measuredOmega deltaT body_P_sensor
  ({ base :=
      baseAfterMeasurements ops s measuredAcc measuredOmega deltaT
        body_P_sensor,
     measurementCovariance := s.measurementCovariance,
     preintMeasCov :=
      F * s.preintMeasCov * F.transpose + deltaT • s.measurementCovariance },
   if wantFout then
     some (usedF ops s measuredAcc measuredOmega deltaT body_P_sensor)
   else none,
   if wantGout then
     some (usedG ops s measuredAcc measuredOmega deltaT body_P_sensor)
   else none)

/-- The mutated object of a call that requests neither optional
output. -/
def integrateState (ops : SO3Ops) (s : PreintegratedMeasurements)
    (measuredAcc measuredOmega : V3) (deltaT : ℚ)
    (body_P_sensor : Option Pose3) : PreintegratedMeasurements :=
  (integrateMeasurement ops s measuredAcc measuredOmega deltaT body_P_sensor
    false false).1

/-- A sequence of `integrateMeasurement` calls (no sensor pose, no
optional outputs), each sample a triple
(measured acceleration, measured angular velocity, Δt). -/
def integrateSeq (ops : SO3Ops) (s : PreintegratedMeasurements)
    (samples : List (V3 × V3 × ℚ)) : PreintegratedMeasurements :=
  samples.foldl
    (fun acc sample => integrateState ops acc sample.1 sample.2.1 sample.2.2
      none) s

/-! ## Block algebra for the 9×9 matrices -/

theorem fromColumns_add {m n₁ n₂ : Type} (A₁ B₁ : Matrix m n₁ ℚ)
    (A₂ B₂ : Matrix m n₂ ℚ) :
    Matrix.fromColumns A₁ A₂ + Matrix.fromColumns B₁ B₂ =
      Matrix.fromColumns (A₁ + B₁) (A₂ + B₂) := by
  funext i j
  rcases j with b | b <;> simp [Matrix.fromColumns]

theorem fromRows_add {m₁ m₂ n : Type} (A₁ B₁ : Matrix m₁ n ℚ)
    (A₂ B₂ : Matrix m₂ n ℚ) :
    Matrix.fromRows A₁ A₂ + Matrix.fromRows B₁ B₂ =
      Matrix.fromRows (A₁ + B₁) (A₂ + B₂) := by
  funext i j
  rcases i with a | a <;> simp [Matrix.fromRows]

theorem fromColumns_smul {m n₁ n₂ : Type} (c : ℚ) (A₁ : Matrix m n₁ ℚ)
    (A₂ : Matrix m n₂ ℚ) :
    c • Matrix.fromColumns A₁ A₂ = Matrix.fromColumns (c • A₁) (c • A₂) := by
  funext i j
  rcases j with b | b <;> simp [Matrix.fromColumns]

theorem fromRows_smul {m₁ m₂ n : Type} (c : ℚ) (A₁ : Matrix m₁ n ℚ)
    (A₂ : Matrix m₂ n ℚ) :
    c • Matrix.fromRows A₁ A₂ = Matrix.fromRows (c • A₁) (c • A₂) := by
  funext i j
  rcases i with a | a <;> simp [Matrix.fromRows]

theorem blocks33_apply_inl_inl (B00 B01 B02 B10 B11 B12 B20 B21 B22 : M3)
    (a b : Fin 3) :
    blocks33 B00 B01 B02 B10 B11 B12 B20 B21 B22 (Sum.inl a) (Sum.inl b) =
      B00 a b := rfl

theorem blocks33_apply_inr_inr (B00 B01 B02 B10 B11 B12 B20 B21 B22 : M3)
    (a b : Fin 3) :
    blocks33 B00 B01 B02 B10 B11 B12 B20 B21 B22 (Sum.inr (Sum.inr a))
      (Sum.inr (Sum.inr b)) = B22 a b := rfl

theorem blocks33_add (B00 B01 B02 B10 B11 B12 B20 B21 B22
    C00 C01 C02 C10 C11 C12 C20 C21 C22 : M3) :
    blocks33 B00 B01 B02 B10 B11 B12 B20 B21 B22 +
      blocks33 C00 C01 C02 C10 C11 C12 C20 C21 C22 =
    blocks33 (B00 + C00) (B01 + C01) (B02 + C02) (B10 + C10) (B11 + C11)
      (B12 + C12) (B20 + C20) (B21 + C21) (B22 + C22) := by
  simp only [blocks33, Matrix.fromBlocks_add, fromColumns_add, fromRows_add]

theorem blocks33_smul (c : ℚ)
    (B00 B01 B02 B10 B11 B12 B20 B21 B22 : M3) :
    c • blocks33 B00 B01 B02 B10 B11 B12 B20 B21 B22 =
    blocks33 (c • B00) (c • B01) (c • B02) (c • B10) (c • B11) (c • B12)
      (c • B20) (c • B21) (c • B22) := by
  simp only [blocks33, Matrix.fromBlocks_smul, fromColumns_smul,
    fromRows_smul]

theorem blocks33_transpose (B00 B01 B02 B10 B11 B12 B20 B21 B22 : M3) :
    (blocks33 B00 B01 B02 B10 B11 B12 B20 B21 B22).transpose =
    blocks33 B00.transpose B10.transpose B20.transpose B01.transpose
      B11.transpose B21.transpose B02.transpose B12.transpose
      B22.transpose := by
  simp only [blocks33, Matrix.fromBlocks_transpose, Matrix.transpose_fromRows,
    Matrix.transpose_fromColumns]

theorem blocks33_mul (B00 B01 B02 B10 B11 B12 B20 B21 B22
    C00 C01 C02 C10 C11 C12 C20 C21 C22 : M3) :
    blocks33 B00 B01 B02 B10 B11 B12 B20 B21 B22 *
      blocks33 C00 C01 C02 C10 C11 C12 C20 C21 C22 =
    blocks33
      (B00 * C00 + B01 * C10 + B02 * C20)
      (B00 * C01 + B01 * C11 + B02 * C21)
      (B00 * C02 + B01 * C12 + B02 * C22)
      (B10 * C00 + B11 * C10 + B12 * C20)
      (B10 * C01 + B11 * C11 + B12 * C21)
      (B10 * C02 + B11 * C12 + B12 * C22)
      (B20 * C00 + B21 * C10 + B22 * C20)
      (B20 * C01 + B21 * C11 + B22 * C21)
      (B20 * C02 + B21 * C12 + B22 * C22) := by
  simp only [blocks33, Matrix.fromBlocks_multiply,
    Matrix.fromColumns_mul_fromRows, Matrix.fromColumns_mul_fromBlocks,
    Matrix.fromBlocks_mul_fromRows, Matrix.fromRows_mul_fromColumns,
    Matrix.fromRows_mul, Matrix.mul_fromColumns,
    Matrix.fromColumns_fromRows_eq_fromBlocks, fromColumns_add,
    fromRows_add, Matrix.fromBlocks_add, add_assoc]

theorem blocks33_zero : blocks33 0 0 0 0 0 0 0 0 0 = (0 : M9) := by
  simp only [blocks33, Matrix.fromColumns_zero, Matrix.fromRows_zero,
    Matrix.fromBlocks_zero]

theorem blocks33_one : blocks33 1 0 0 0 1 0 0 0 1 = (1 : M9) := by
  simp only [blocks33, Matrix.fromColumns_zero, Matrix.fromRows_zero,
    Matrix.fromBlocks_one]

theorem blocks33_trace (B00 B01 B02 B10 B11 B12 B20 B21 B22 : M3) :
    (blocks33 B00 B01 B02 B10 B11 B12 B20 B21 B22).trace =
      B00.trace + B11.trace + B22.trace := by
  simp [blocks33, Matrix.trace, Matrix.diag, Fintype.sum_sum_type,
    Matrix.fromBlocks, add_assoc]

/-! ## Symmetric positive semidefiniteness over ℚ -/

/-- A 3×3 matrix is symmetric positive semidefinite: equal to its
transpose, with a nonnegative quadratic form. -/
def IsSymmPSD3 (M : M3) : Prop :=
  M.transpose = M ∧ ∀ x : V3, 0 ≤ x ⬝ᵥ M.mulVec x

/-- A 3×3 matrix is symmetric positive definite. -/
def IsSymmPD3 (M : M3) : Prop :=
  M.transpose = M ∧ ∀ x : V3, x ≠ 0 → 0 < x ⬝ᵥ M.mulVec x

/-- A 9×9 matrix is symmetric positive semidefinite. -/
def IsSymmPSD (M : M9) : Prop :=
  M.transpose = M ∧ ∀ x : V9, 0 ≤ x ⬝ᵥ M.mulVec x

theorem IsSymmPD3.toPSD {M : M3} (h : IsSymmPD3 M) : IsSymmPSD3 M := by
  refine ⟨h.1, fun x => ?_⟩
  by_cases hx : x = 0
  · simp [hx]
  · exact le_of_lt (h.2 x hx)

theorem isSymmPSD_zero : IsSymmPSD 0 := by
  refine ⟨Matrix.transpose_zero, fun x => ?_⟩
  simp

theorem IsSymmPSD.add {M N : M9} (hM : IsSymmPSD M) (hN : IsSymmPSD N) :
    IsSymmPSD (M + N) := by
  refine ⟨by rw [Matrix.transpose_add, hM.1, hN.1], fun x => ?_⟩
  rw [Matrix.add_mulVec, Matrix.dotProduct_add]
  exact add_nonneg (hM.2 x) (hN.2 x)

theorem IsSymmPSD.smul {M : M9} (hM : IsSymmPSD M) {c : ℚ} (hc : 0 ≤ c) :
    IsSymmPSD (c • M) := by
  refine ⟨by rw [Matrix.transpose_smul, hM.1], fun x => ?_⟩
  rw [Matrix.smul_mulVec_assoc, Matrix.dotProduct_smul]
  exact mul_nonneg hc (hM.2 x)

/-- The congruence `F * M * Fᵀ` preserves symmetric positive
semidefiniteness (for an arbitrary transition matrix `F`). -/
theorem IsSymmPSD.congrMul {M : M9} (hM : IsSymmPSD M) (F : M9) :
    IsSymmPSD (F * M * F.transpose) := by
  constructor
  · rw [Matrix.transpose_mul, Matrix.transpose_mul, Matrix.transpose_transpose,
      hM.1, Matrix.mul_assoc]
  · intro x
    have hrw : x ⬝ᵥ (F * M * F.transpose).mulVec x =
        (F.transpose.mulVec x) ⬝ᵥ M.mulVec (F.transpose.mulVec x) := by
      rw [← Matrix.mulVec_mulVec, ← Matrix.mulVec_mulVec,
        Matrix.dotProduct_mulVec x F, ← Matrix.mulVec_transpose]
    rw [hrw]
    exact hM.2 _

/-- The quadratic form of a block-diagonal 9×9 matrix splits into the
quadratic forms of its three diagonal blocks. -/
theorem blocks33_diag_quadForm (A B C : M3) (x : V9) :
    x ⬝ᵥ (blocks33 A 0 0 0 B 0 0 0 C).mulVec x =
      (fun a => x (Sum.inl a)) ⬝ᵥ A.mulVec (fun a => x (Sum.inl a)) +
      (fun a => x (Sum.inr (Sum.inl a))) ⬝ᵥ
        B.mulVec (fun a => x (Sum.inr (Sum.inl a))) +
      (fun a => x (Sum.inr (Sum.inr a))) ⬝ᵥ
        C.mulVec (fun a => x (Sum.inr (Sum.inr a))) := by
  simp [Matrix.dotProduct, Matrix.mulVec, Fintype.sum_sum_type, blocks33,
    Finset.mul_sum, Finset.sum_add_distrib, add_assoc]

/-- A block-diagonal matrix assembled from three symmetric PSD blocks is
symmetric PSD. -/
theorem isSymmPSD_blocks33_diag {A B C : M3} (hA : IsSymmPSD3 A)
    (hB : IsSymmPSD3 B) (hC : IsSymmPSD3 C) :
    IsSymmPSD (blocks33 A 0 0 0 B 0 0 0 C) := by
  constructor
  · rw [blocks33_transpose, Matrix.transpose_zero, hA.1, hB.1, hC.1]
  · intro x
    rw [blocks33_diag_quadForm]
    exact add_nonneg (add_nonneg (hA.2 _) (hB.2 _)) (hC.2 _)

/-- The quadratic form at a standard basis vector is the corresponding
diagonal entry. -/
theorem quadForm_single (M : M9) (i : I9) :
    (Pi.single i 1 : V9) ⬝ᵥ M.mulVec (Pi.single i 1) = M i i := by
  simp [Matrix.dotProduct, Matrix.mulVec, Pi.single_apply, mul_ite, ite_mul,
    Finset.mul_sum]

theorem IsSymmPSD.diag_nonneg {M : M9} (hM : IsSymmPSD M) (i : I9) :
    0 ≤ M i i := by
  have h := hM.2 (Pi.single i 1)
  rwa [quadForm_single] at h

theorem IsSymmPSD.trace_nonneg {M : M9} (hM : IsSymmPSD M) :
    0 ≤ M.trace := by
  exact Finset.sum_nonneg fun i _ => hM.diag_nonneg i

/-! ## Characterization of one integration step -/

theorem integrateState_preintMeasCov (ops : SO3Ops)
    (s : PreintegratedMeasurements) (a w : V3) (dt : ℚ)
    (p : Option Pose3) :
    (integrateState ops s a w dt p).preintMeasCov =
      usedF ops s a w dt p * s.preintMeasCov * (usedF ops s a w dt p).transpose
        + dt • s.measurementCovariance := rfl

theorem integrateState_measurementCovariance (ops : SO3Ops)
    (s : PreintegratedMeasurements) (a w : V3) (dt : ℚ)
    (p : Option Pose3) :
    (integrateState ops s a w dt p).measurementCovariance =
      s.measurementCovariance := rfl

theorem integrateState_base (ops : SO3Ops) (s : PreintegratedMeasurements)
    (a w : V3) (dt : ℚ) (p : Option Pose3) :
    (integrateState ops s a w dt p).base =
      baseAfterMeasurements ops s a w dt p := rfl

theorem integrateState_deltaRij (ops : SO3Ops)
    (s : PreintegratedMeasurements) (a w : V3) (dt : ℚ) (p : Option Pose3) :
    (integrateState ops s a w dt p).base.deltaRij =
      s.base.deltaRij * RincrOf ops s a w dt p := rfl

theorem integrateState_biasHatAcc (ops : SO3Ops)
    (s : PreintegratedMeasurements) (a w : V3) (dt : ℚ) (p : Option Pose3) :
    (integrateState ops s a w dt p).base.biasHatAcc =
      s.base.biasHatAcc := rfl

theorem integrateSeq_nil (ops : SO3Ops) (s : PreintegratedMeasurements) :
    integrateSeq ops s [] = s := rfl

theorem integrateSeq_cons (ops : SO3Ops) (s : PreintegratedMeasurements)
    (t : V3 × V3 × ℚ) (ts : List (V3 × V3 × ℚ)) :
    integrateSeq ops s (t :: ts) =
      integrateSeq ops (integrateState ops s t.1 t.2.1 t.2.2 none) ts := rfl

/-- One integration step with `0 ≤ Δt` maps a symmetric PSD covariance
to a symmetric PSD covariance, provided the process-noise matrix is
symmetric PSD (`ImuFactor.cpp:127`). -/
theorem isSymmPSD_integrateState (ops : SO3Ops)
    (s : PreintegratedMeasurements) (a w : V3) {dt : ℚ} (p : Option Pose3)
    (hP : IsSymmPSD s.preintMeasCov) (hQ : IsSymmPSD s.measurementCovariance)
    (hdt : 0 ≤ dt) :
    IsSymmPSD (integrateState ops s a w dt p).preintMeasCov := by
  rw [integrateState_preintMeasCov]
  exact (hP.congrMul _).add (hQ.smul hdt)

/-- The symmetric-PSD invariant propagates through any sequence of
integration steps with nonnegative time intervals. -/
theorem isSymmPSD_integrateSeq (ops : SO3Ops)
    (samples : List (V3 × V3 × ℚ)) :
    ∀ s : PreintegratedMeasurements, IsSymmPSD s.measurementCovariance →
      IsSymmPSD s.preintMeasCov → (∀ t ∈ samples, 0 ≤ t.2.2) →
      IsSymmPSD (integrateSeq ops s samples).preintMeasCov := by
  induction samples with
  | nil => intro s _ hP _; exact hP
  | cons t ts ih =>
      intro s hQ hP hdt
      rw [integrateSeq_cons]
      refine ih _ ?_ ?_ (fun u hu => hdt u (List.mem_cons_of_mem _ hu))
      · rw [integrateState_measurementCovariance]; exact hQ
      · exact isSymmPSD_integrateState ops s t.1 t.2.1 none hP hQ
          (hdt t (List.mem_cons_self t ts))

/-! ## Positive-definite helper facts -/

theorem dotProduct_self_nonneg (x : V3) : 0 ≤ x ⬝ᵥ x :=
  Finset.sum_nonneg fun i _ => mul_self_nonneg (x i)

theorem dotProduct_self_pos {x : V3} (hx : x ≠ 0) : 0 < x ⬝ᵥ x := by
  obtain ⟨i, hi⟩ := Function.ne_iff.1 hx
  refine Finset.sum_pos' (fun j _ => mul_self_nonneg (x j))
    ⟨i, Finset.mem_univ i, ?_⟩
  exact mul_self_pos.2 hi

theorem isSymmPD3_smul_one {c : ℚ} (hc : 0 < c) : IsSymmPD3 (c • 1) := by
  constructor
  · rw [Matrix.transpose_smul, Matrix.transpose_one]
  · intro x hx
    rw [Matrix.smul_mulVec_assoc, Matrix.one_mulVec, Matrix.dotProduct_smul,
      smul_eq_mul]
    exact mul_pos hc (dotProduct_self_pos hx)

theorem isSymmPD3_one : IsSymmPD3 (1 : M3) := by
  have h := isSymmPD3_smul_one one_pos
  rwa [one_smul] at h

theorem quadForm3_single (M : M3) (i : Fin 3) :
    (Pi.single i 1 : V3) ⬝ᵥ M.mulVec (Pi.single i 1) = M i i := by
  simp [Matrix.dotProduct, Matrix.mulVec, Pi.single_apply, mul_ite, ite_mul,
    Finset.mul_sum]

theorem IsSymmPD3.diag_pos {M : M3} (hM : IsSymmPD3 M) (i : Fin 3) :
    0 < M i i := by
  have hs : (Pi.single i 1 : V3) ≠ 0 := by
    intro h
    have h1 := congrFun h i
    simp [Pi.single_apply] at h1
  have h := hM.2 _ hs
  rwa [quadForm3_single] at h

theorem IsSymmPD3.trace_pos {M : M3} (hM : IsSymmPD3 M) : 0 < M.trace :=
  Finset.sum_pos (fun i _ => hM.diag_pos i) ⟨0, Finset.mem_univ 0⟩

/-! ## Claim theorems -/

/-- C2: every call to `integrateMeasurement` updates the 9×9
preintegrated covariance exactly by
`preintMeasCov ← F · preintMeasCov · Fᵀ + Q · Δt` (`ImuFactor.cpp:127`),
where `Q = measurementCovariance_` is the matrix assembled at
construction (`ImuFactor.cpp:40-44`) with the integration-error
covariance in block (0,0), the accelerometer-noise covariance in block
(3,3), the gyroscope-noise covariance in block (6,6) and zeros
elsewhere. -/
theorem integrate_covariance_update_law (ops : SO3Ops)
    (s : PreintegratedMeasurements) (a w : V3) (dt : ℚ) (p : Option Pose3)
    (wantF wantG : Bool) (biasAcc biasOmega : V3)
    (accCov omegaCov intCov : M3) (u : Bool) :
    ((integrateMeasurement ops s a w dt p wantF wantG).1).preintMeasCov =
      usedF ops s a w dt p * s.preintMeasCov * (usedF ops s a w dt p).transpose
        + dt • s.measurementCovariance ∧
    (mkPreintegratedMeasurements biasAcc biasOmega accCov omegaCov intCov
        u).measurementCovariance =
      blocks33 intCov 0 0 0 accCov 0 0 0 omegaCov :=
  ⟨rfl, rfl⟩

/-- C3: within one `integrateMeasurement` call the bias-sensitivity
Jacobians are updated from the pre-advance cumulative rotation delta
`s.base.deltaRij` (`ImuFactor.cpp:85`, before line 96 advances the
deltas), and the covariance transition matrix `F` is evaluated at the
pre-advance rotation and its right-Jacobian (`ImuFactor.cpp:90-92`),
with only the inverse-right-Jacobian factor evaluated at the
post-advance rotation `s.base.deltaRij * Rincr` (`ImuFactor.cpp:98-99`). -/
theorem integrate_update_order_pre_advance (ops : SO3Ops)
    (s : PreintegratedMeasurements) (a w : V3) (dt : ℚ) (p : Option Pose3) :
    (integrateState ops s a w dt p).base.delRdelBiasOmega =
      (RincrOf ops s a w dt p).transpose * s.base.delRdelBiasOmega -
        dt • JrThetaIncrOf ops s a w dt p ∧
    (integrateState ops s a w dt p).base.delVdelBiasAcc =
      s.base.delVdelBiasAcc - dt • s.base.deltaRij ∧
    (integrateState ops s a w dt p).base.delVdelBiasOmega =
      s.base.delVdelBiasOmega - dt • (s.base.deltaRij *
        skewSymmetric (correctedAccOf s a w p) * s.base.delRdelBiasOmega) ∧
    (integrateState ops s a w dt p).base.delPdelBiasAcc =
      s.base.delPdelBiasAcc + dt • s.base.delVdelBiasAcc -
        (if s.base.use2ndOrderIntegration then (dt * dt / 2) • s.base.deltaRij
          else 0) ∧
    (integrateState ops s a w dt p).base.delPdelBiasOmega =
      s.base.delPdelBiasOmega + dt • s.base.delVdelBiasOmega -
        (if s.base.use2ndOrderIntegration then (dt * dt / 2) •
          (s.base.deltaRij * skewSymmetric (correctedAccOf s a w p) *
            s.base.delRdelBiasOmega) else 0) ∧
    usedF ops s a w dt p =
      transitionF s.base.deltaRij
        (ops.rightJacobian (ops.Logmap s.base.deltaRij))
        (ops.rightJacobianInv
          (ops.Logmap (s.base.deltaRij * RincrOf ops s a w dt p)))
        (RincrOf ops s a w dt p) (correctedAccOf s a w p) dt :=
  ⟨rfl, rfl, rfl, rfl, rfl, rfl⟩

/-- C6: `resetIntegration` (`ImuFactor.cpp:62-65`) clears the
preintegrated deltas to the identity, the bias-Jacobians to zero and the
preintegrated covariance to the zero matrix, and it is idempotent. -/
theorem resetIntegration_clears_and_idempotent
    (s : PreintegratedMeasurements) :
    s.resetIntegration.base.deltaRij = 1 ∧
    s.resetIntegration.base.deltaVij = 0 ∧
    s.resetIntegration.base.deltaPij = 0 ∧
    s.resetIntegration.base.delPdelBiasAcc = 0 ∧
    s.resetIntegration.base.delPdelBiasOmega = 0 ∧
    s.resetIntegration.base.delVdelBiasAcc = 0 ∧
    s.resetIntegration.base.delVdelBiasOmega = 0 ∧
    s.resetIntegration.base.delRdelBiasOmega = 0 ∧
    s.resetIntegration.preintMeasCov = 0 ∧
    s.resetIntegration.resetIntegration = s.resetIntegration :=
  ⟨rfl, rfl, rfl, rfl, rfl, rfl, rfl, rfl, rfl, rfl⟩

/-- C7: the optional output slots of `integrateMeasurement`
(`ImuFactor.cpp:129-142`) are written exactly when supplied — `Fout`
receives the transition matrix `F` used in that same call's covariance
update, `Gout` the noise-mapping matrix — the assignments are skipped
when a slot is absent, and the mutated preintegrated state is the same
whether or not the outputs are requested. -/
theorem optional_outputs_contract (ops : SO3Ops)
    (s : PreintegratedMeasurements) (a w : V3) (dt : ℚ) (p : Option Pose3)
    (wantF wantG : Bool) :
    (integrateMeasurement ops s a w dt p wantF wantG).1 =
      integrateState ops s a w dt p ∧
    (integrateMeasurement ops s a w dt p wantF wantG).2.1 =
      (if wantF then some (usedF ops s a w dt p) else none) ∧
    (integrateMeasurement ops s a w dt p wantF wantG).2.2 =
      (if wantG then some (usedG ops s a w dt p) else none) ∧
    (integrateState ops s a w dt p).preintMeasCov =
      usedF ops s a w dt p * s.preintMeasCov *
        (usedF ops s a w dt p).transpose + dt • s.measurementCovariance :=
  ⟨rfl, rfl, rfl, rfl⟩

/-- C9: neither `resetIntegration` (`ImuFactor.cpp:62-65`) nor
`integrateMeasurement` (`ImuFactor.cpp:68-143`) modifies the
process-noise configuration `measurementCovariance_` assembled at
construction; reset clears only the base deltas/Jacobians and
`preintMeasCov_`. -/
theorem measurementCovariance_never_modified
    (s : PreintegratedMeasurements) :
    s.resetIntegration.measurementCovariance = s.measurementCovariance ∧
    (∀ (ops : SO3Ops) (a w : V3) (dt : ℚ) (p : Option Pose3)
      (wantF wantG : Bool),
      ((integrateMeasurement ops s a w dt p wantF wantG).1).measurementCovariance
        = s.measurementCovariance) ∧
    s.resetIntegration.base.biasHatAcc = s.base.biasHatAcc ∧
    s.resetIntegration.base.biasHatOmega = s.base.biasHatOmega :=
  ⟨rfl, fun _ _ _ _ _ _ _ => rfl, rfl, rfl⟩

/-- C10: a call with `deltaT = 0` and no sensor pose signals no error
(the embedding is total — `ImuFactor.cpp:68-143` contains no
validation) and is a complete no-op on the preintegrated state: the
rotation increment is the identity, the transition matrix `F` reduces
to the identity, the added noise term is zero, and the deltas, bias
Jacobians and covariance are unchanged. -/
theorem integrate_zero_dt_noop (ops : SO3Ops)
    (s : PreintegratedMeasurements) (a w : V3) (wantF wantG : Bool) :
    (integrateMeasurement ops s a w 0 none wantF wantG).1 = s ∧
    RincrOf ops s a w 0 none = 1 ∧
    usedF ops s a w 0 none = 1 ∧
    (0 : ℚ) • s.measurementCovariance = 0 := by
  have hRincr : RincrOf ops s a w 0 none = 1 := by
    rw [RincrOf, thetaIncrOf, zero_smul, ops.Expmap_zero]
  have hbase1 : baseAfterJacobians ops s a w 0 none =
      { s.base with delRdelBiasOmega :=
          (RincrOf ops s a w 0 none).transpose * s.base.delRdelBiasOmega } := by
    rw [baseAfterJacobians, updatePreintegratedJacobians]
    simp [zero_smul, sub_zero, add_zero]
  have hbase2 : baseAfterMeasurements ops s a w 0 none = s.base := by
    rw [baseAfterMeasurements, hbase1, updatePreintegratedMeasurements,
      hRincr]
    simp [zero_smul, add_zero, Matrix.transpose_one, one_mul, mul_one]
  have hF : usedF ops s a w 0 none = 1 := by
    rw [usedF, hbase2, hbase1, hRincr, transitionF]
    simp only [Matrix.transpose_one, mul_one, zero_smul, smul_zero, neg_zero,
      ops.rightJacobianInv_mul]
    exact blocks33_one
  refine ⟨?_, hRincr, hF, zero_smul _ _⟩
  have hcov : (integrateMeasurement ops s a w 0 none wantF wantG).1.preintMeasCov
      = s.preintMeasCov := by
    show usedF ops s a w 0 none * s.preintMeasCov *
        (usedF ops s a w 0 none).transpose +
        (0 : ℚ) • s.measurementCovariance = s.preintMeasCov
    rw [hF, Matrix.transpose_one, one_mul, mul_one, zero_smul, add_zero]
  obtain ⟨b, mc, pc⟩ := s
  refine PreintegratedMeasurements.ext ?_ rfl ?_
  · exact hbase2
  · exact hcov

/-- A concrete preintegrator: zero bias, identity noise covariance
blocks, first-order integration. -/
def c1state : PreintegratedMeasurements :=
  mkPreintegratedMeasurements 0 0 1 1 1 false

/-- C1 (counterexample): a call with `deltaT = -1 ≤ 0` does not fail —
`ImuFactor.cpp:68-143` contains no validation — and it mutates the
preintegrated state: the covariance moves from `0` to `-1 • Q ≠ 0`
(line 127 executes unconditionally), contradicting the claim that no
part of the state is mutated when `deltaT ≤ 0`. -/
theorem integrate_nonpositive_dt_mutates_counterexample :
    ((-1 : ℚ) ≤ 0) ∧
    (integrateState trivialOps c1state 0 0 (-1) none).preintMeasCov ≠
      c1state.preintMeasCov := by
  refine ⟨by norm_num, fun h => ?_⟩
  have h0 : (integrateState trivialOps c1state 0 0 (-1) none).preintMeasCov
      (Sum.inr (Sum.inr 0)) (Sum.inr (Sum.inr 0)) = -1 := by
    rw [integrateState_preintMeasCov]
    have hP : c1state.preintMeasCov = 0 := rfl
    rw [hP, Matrix.mul_zero, Matrix.zero_mul, zero_add]
    have hq : c1state.measurementCovariance =
        blocks33 1 0 0 0 1 0 0 0 1 := rfl
    rw [Matrix.smul_apply, hq, blocks33_apply_inr_inr, Matrix.one_apply_eq,
      smul_eq_mul, mul_one]
  have h1 := congrFun (congrFun h (Sum.inr (Sum.inr 0)))
    (Sum.inr (Sum.inr 0))
  have h2 : c1state.preintMeasCov (Sum.inr (Sum.inr 0))
      (Sum.inr (Sum.inr 0)) = 0 := rfl
  rw [h0, h2] at h1
  norm_num at h1

/-- C1 (amended): `integrateMeasurement` performs no validation of
`deltaT` and never signals an error; for every `deltaT ≤ 0` the call
completes normally and commits the ordinary update — the advanced base
state and the covariance update of `ImuFactor.cpp:127` — exactly as for
positive `deltaT`. -/
theorem integrate_nonpositive_dt_update_law (ops : SO3Ops)
    (s : PreintegratedMeasurements) (a w : V3) (dt : ℚ) (p : Option Pose3)
    (wantF wantG : Bool) (hdt : dt ≤ 0) :
    (integrateMeasurement ops s a w dt p wantF wantG).1 =
      { base := baseAfterMeasurements ops s a w dt p,
        measurementCovariance := s.measurementCovariance,
        preintMeasCov := usedF ops s a w dt p * s.preintMeasCov *
          (usedF ops s a w dt p).transpose +
          dt • s.measurementCovariance } := rfl

theorem integrate_nonpositive_dt_update_law_witness :
    (integrateMeasurement trivialOps c1state 0 0 (-1) none false false).1 =
      { base := baseAfterMeasurements trivialOps c1state 0 0 (-1) none,
        measurementCovariance := c1state.measurementCovariance,
        preintMeasCov := usedF trivialOps c1state 0 0 (-1) none *
          c1state.preintMeasCov *
          (usedF trivialOps c1state 0 0 (-1) none).transpose +
          (-1 : ℚ) • c1state.measurementCovariance } :=
  integrate_nonpositive_dt_update_law trivialOps c1state 0 0 (-1) none
    false false (by norm_num)

/-- C4: the preintegrated covariance is zero immediately after
construction (`ImuFactor.cpp:44`) and after every reset
(`ImuFactor.cpp:64`), and stays symmetric positive semidefinite under
any sequence of `integrateMeasurement` calls with positive `deltaT`
when the three noise blocks supplied at construction are symmetric
PSD. -/
theorem preintMeasCov_zero_init_and_psd (ops : SO3Ops)
    (biasAcc biasOmega : V3) (accCov omegaCov intCov : M3) (u : Bool)
    (s : PreintegratedMeasurements) (samples : List (V3 × V3 × ℚ))
    (hInt : IsSymmPSD3 intCov) (hAcc : IsSymmPSD3 accCov)
    (hOmega : IsSymmPSD3 omegaCov) (hdt : ∀ t ∈ samples, 0 < t.2.2) :
    (mkPreintegratedMeasurements biasAcc biasOmega accCov omegaCov intCov
        u).preintMeasCov = 0 ∧
    s.resetIntegration.preintMeasCov = 0 ∧
    IsSymmPSD (integrateSeq ops
      (mkPreintegratedMeasurements biasAcc biasOmega accCov omegaCov intCov
        u) samples).preintMeasCov := by
  refine ⟨rfl, rfl, ?_⟩
  refine isSymmPSD_integrateSeq ops samples _ ?_ ?_
    (fun t ht => le_of_lt (hdt t ht))
  · exact isSymmPSD_blocks33_diag hInt hAcc hOmega
  · exact isSymmPSD_zero

theorem preintMeasCov_zero_init_and_psd_witness :
    (mkPreintegratedMeasurements 0 0 1 1 1 false).preintMeasCov = 0 ∧
    (mkPreintegratedMeasurements 0 0 1 1 1
      false).resetIntegration.preintMeasCov = 0 ∧
    IsSymmPSD (integrateSeq trivialOps
      (mkPreintegratedMeasurements 0 0 1 1 1 false)
      [(0, 0, 1)]).preintMeasCov :=
  preintMeasCov_zero_init_and_psd trivialOps 0 0 1 1 1 false
    (mkPreintegratedMeasurements 0 0 1 1 1 false) [(0, 0, 1)]
    isSymmPD3_one.toPSD isSymmPD3_one.toPSD isSymmPD3_one.toPSD
    (fun t ht => by rw [List.mem_singleton] at ht; subst ht; norm_num)

/-! ## A concrete three-step trajectory

All three samples have zero angular velocity and the constructed state
has zero bias, so every rotation quantity equals the identity and the
abstract SO(3) operations are exercised only at points where
`trivialOps` agrees with the real Rodrigues formulas. -/

/-- The transition matrix of a `trivialOps` call with no sensor pose:
identity rotation blocks, `Δt·I` position-velocity coupling and the
`-Δt·R·[a]ₓ` velocity-rotation coupling of `ImuFactor.cpp:107`. -/
theorem usedF_trivial (s : PreintegratedMeasurements) (a w : V3)
    (dt : ℚ) :
    usedF trivialOps s a w dt none =
      blocks33 1 (dt • 1) 0
        0 1 (-(dt • (s.base.deltaRij *
          skewSymmetric (a - s.base.biasHatAcc))))
        0 0 1 := by
  rw [usedF, transitionF]
  simp [trivialOps, baseAfterJacobians, updatePreintegratedJacobians,
    correctedAccOf, correctMeasurements, RincrOf, thetaIncrOf,
    correctedOmegaOf, Matrix.transpose_one]

/-- The process-noise block `(1/100)·I` used by the trajectory. -/
def cexQblock : M3 := (1 / 100 : ℚ) • 1

/-- Start state of the trajectory: zero bias, accelerometer and
integration-error blocks `(1/100)·I`, gyroscope block `I`. -/
def cexStart : PreintegratedMeasurements :=
  mkPreintegratedMeasurements 0 0 cexQblock 1 cexQblock false

/-- The acceleration input of the second sample. -/
def cexAcc : V3 := ![2, 0, 0]

/-- The trajectory's samples: Δt is 1, 1 and 1/10; angular velocity is
always zero; the third acceleration reverses the second. -/
def cexSamples : List (V3 × V3 × ℚ) :=
  [(0, 0, 1), (cexAcc, 0, 1), (-cexAcc, 0, 1 / 10)]

/-- State after the first call. -/
def cexS1 : PreintegratedMeasurements :=
  integrateState trivialOps cexStart 0 0 1 none

/-- State after the second call. -/
def cexS2 : PreintegratedMeasurements :=
  integrateState trivialOps cexS1 cexAcc 0 1 none

/-- State after the third call. -/
def cexS3 : PreintegratedMeasurements :=
  integrateState trivialOps cexS2 (-cexAcc) 0 (1 / 10) none

/-- `skewSymmetric cexAcc` as a literal. -/
def cexS : M3 := !![0, 0, 0; 0, 0, -2; 0, 2, 0]

theorem skew_cexAcc : skewSymmetric cexAcc = cexS := by
  funext i j
  fin_cases i <;> fin_cases j <;>
    simp [skewSymmetric, cexAcc, cexS, Matrix.vecHead, Matrix.vecTail]

theorem skew_neg_cexAcc : skewSymmetric (-cexAcc) = -cexS := by
  funext i j
  fin_cases i <;> fin_cases j <;>
    simp [skewSymmetric, cexAcc, cexS, Matrix.vecHead, Matrix.vecTail]

theorem cexS_transpose : cexS.transpose = -cexS := by
  funext i j
  fin_cases i <;> fin_cases j <;>
    simp [cexS, Matrix.vecHead, Matrix.vecTail]

theorem cexStart_cov : cexStart.preintMeasCov = 0 := rfl

theorem cexStart_measCov : cexStart.measurementCovariance =
    blocks33 cexQblock 0 0 0 cexQblock 0 0 0 1 := rfl

theorem cexS1_cov : cexS1.preintMeasCov =
    blocks33 cexQblock 0 0 0 cexQblock 0 0 0 1 := by
  rw [cexS1, integrateState_preintMeasCov, cexStart_cov, Matrix.mul_zero,
    Matrix.zero_mul, zero_add, cexStart_measCov, one_smul]

theorem cexS1_deltaRij : cexS1.base.deltaRij = 1 := by
  rw [cexS1, integrateState_deltaRij]
  have h : cexStart.base.deltaRij = 1 := rfl
  have h2 : RincrOf trivialOps cexStart 0 0 1 none = 1 := rfl
  rw [h, h2, one_mul]

theorem cexS1_biasHatAcc : cexS1.base.biasHatAcc = 0 := rfl

theorem cexS1_measCov : cexS1.measurementCovariance =
    blocks33 cexQblock 0 0 0 cexQblock 0 0 0 1 := rfl

theorem cexF2 : usedF trivialOps cexS1 cexAcc 0 1 none =
    blocks33 1 1 0 0 1 (-cexS) 0 0 1 := by
  rw [usedF_trivial, cexS1_deltaRij, cexS1_biasHatAcc]
  simp [skew_cexAcc]

theorem blocks33_congr {B00 B01 B02 B10 B11 B12 B20 B21 B22
    C00 C01 C02 C10 C11 C12 C20 C21 C22 : M3}
    (h00 : B00 = C00) (h01 : B01 = C01) (h02 : B02 = C02)
    (h10 : B10 = C10) (h11 : B11 = C11) (h12 : B12 = C12)
    (h20 : B20 = C20) (h21 : B21 = C21) (h22 : B22 = C22) :
    blocks33 B00 B01 B02 B10 B11 B12 B20 B21 B22 =
      blocks33 C00 C01 C02 C10 C11 C12 C20 C21 C22 := by
  rw [h00, h01, h02, h10, h11, h12, h20, h21, h22]

/-- The covariance after the second call, computed exactly. -/
def cexP2 : M9 :=
  blocks33 !![3/100, 0, 0; 0, 3/100, 0; 0, 0, 3/100]
           !![1/100, 0, 0; 0, 1/100, 0; 0, 0, 1/100]
           0
           !![1/100, 0, 0; 0, 1/100, 0; 0, 0, 1/100]
           !![1/50, 0, 0; 0, 201/50, 0; 0, 0, 201/50]
           !![0, 0, 0; 0, 0, 2; 0, -2, 0]
           0
           !![0, 0, 0; 0, 0, -2; 0, 2, 0]
           !![2, 0, 0; 0, 2, 0; 0, 0, 2]

theorem cexS2_cov : cexS2.preintMeasCov = cexP2 := by
  rw [cexS2, integrateState_preintMeasCov, cexF2, cexS1_cov, cexS1_measCov,
    blocks33_transpose, blocks33_mul, blocks33_mul, one_smul, blocks33_add,
    cexP2]
  simp only [Matrix.transpose_one, Matrix.transpose_zero,
    Matrix.transpose_neg, cexS_transpose, neg_neg, one_mul, mul_one,
    zero_mul, mul_zero, add_zero, zero_add, Matrix.neg_mul, Matrix.mul_neg,
    neg_zero]
  refine blocks33_congr ?_ ?_ ?_ ?_ ?_ ?_ ?_ ?_ ?_ <;>
    · funext i j
      fin_cases i <;> fin_cases j <;>
        norm_num [cexQblock, cexS, Matrix.mul_apply, Fin.sum_univ_three,
          Matrix.vecHead, Matrix.vecTail, Matrix.smul_apply,
          Matrix.one_apply, Fin.ext_iff]

theorem cexS2_deltaRij : cexS2.base.deltaRij = 1 := by
  rw [cexS2, integrateState_deltaRij, cexS1_deltaRij]
  have h2 : RincrOf trivialOps cexS1 cexAcc 0 1 none = 1 := rfl
  rw [h2, one_mul]

theorem cexS2_biasHatAcc : cexS2.base.biasHatAcc = 0 := rfl

theorem cexS2_measCov : cexS2.measurementCovariance =
    blocks33 cexQblock 0 0 0 cexQblock 0 0 0 1 := rfl

theorem cexF3 : usedF trivialOps cexS2 (-cexAcc) 0 (1 / 10) none =
    blocks33 1 ((1 / 10 : ℚ) • 1) 0
             0 1 ((1 / 10 : ℚ) • cexS)
             0 0 1 := by
  rw [usedF_trivial, cexS2_deltaRij, cexS2_biasHatAcc]
  simp [sub_zero, skew_neg_cexAcc, one_mul, smul_neg, neg_neg]

/-- The covariance after the third call, computed exactly. -/
def cexP3 : M9 :=
  blocks33 !![83/2500, 0, 0; 0, 183/2500, 0; 0, 0, 183/2500]
           !![3/250, 0, 0; 0, 93/250, 0; 0, 0, 93/250]
           !![0, 0, 0; 0, 0, 1/5; 0, -1/5, 0]
           !![3/250, 0, 0; 0, 93/250, 0; 0, 0, 93/250]
           !![21/1000, 0, 0; 0, 3301/1000, 0; 0, 0, 3301/1000]
           !![0, 0, 0; 0, 0, 8/5; 0, -8/5, 0]
           !![0, 0, 0; 0, 0, -1/5; 0, 1/5, 0]
           !![0, 0, 0; 0, 0, -8/5; 0, 8/5, 0]
           !![21/10, 0, 0; 0, 21/10, 0; 0, 0, 21/10]

set_option maxHeartbeats 1600000 in
theorem cexS3_cov : cexS3.preintMeasCov = cexP3 := by
  rw [cexS3, integrateState_preintMeasCov, cexF3, cexS2_cov, cexS2_measCov,
    cexP2, blocks33_transpose, blocks33_mul, blocks33_mul, blocks33_smul,
    blocks33_add, cexP3]
  simp only [Matrix.transpose_one, Matrix.transpose_zero,
    Matrix.transpose_smul, cexS_transpose, smul_neg, neg_neg, one_mul,
    mul_one, zero_mul, mul_zero, add_zero, zero_add, Matrix.neg_mul,
    Matrix.mul_neg, neg_zero, smul_zero, smul_mul_assoc, mul_smul_comm,
    smul_smul]
  refine blocks33_congr ?_ ?_ ?_ ?_ ?_ ?_ ?_ ?_ ?_ <;>
    · funext i j
      fin_cases i <;> fin_cases j <;>
        norm_num [cexQblock, cexS, Matrix.mul_apply, Fin.sum_univ_three,
          Matrix.vecHead, Matrix.vecTail, Matrix.smul_apply,
          Matrix.one_apply, Fin.ext_iff]

theorem trace_cexP2 : cexP2.trace = 283 / 20 := by
  rw [cexP2, blocks33_trace]
  simp [Matrix.trace_fin_three_of]
  norm_num

theorem trace_cexP3 : cexP3.trace = 65513 / 5000 := by
  rw [cexP3, blocks33_trace]
  simp [Matrix.trace_fin_three_of]
  norm_num

/-- C5 (counterexample): for the three-sample sequence `cexSamples`
(positive-definite process-noise blocks, every `deltaT > 0`) the trace
of the preintegrated covariance strictly decreases across the third
`integrateMeasurement` call: it is `283/20` after two calls and
`65513/5000 < 283/20` after the third, so the trace is not
non-decreasing. -/
theorem trace_monotonicity_counterexample :
    IsSymmPD3 cexQblock ∧ IsSymmPD3 (1 : M3) ∧
    (∀ t ∈ cexSamples, 0 < t.2.2) ∧
    integrateSeq trivialOps cexStart (cexSamples.take 2) = cexS2 ∧
    integrateSeq trivialOps cexStart cexSamples = cexS3 ∧
    Matrix.trace cexS3.preintMeasCov <
      Matrix.trace cexS2.preintMeasCov := by
  refine ⟨isSymmPD3_smul_one (by norm_num), isSymmPD3_one, ?_, rfl, rfl, ?_⟩
  · intro t ht
    fin_cases ht <;> norm_num
  · rw [cexS2_cov, cexS3_cov, trace_cexP2, trace_cexP3]
    norm_num

/-- C5 (amended): with symmetric positive-definite noise blocks and
positive time intervals, the trace of the preintegrated covariance is
nonnegative after any sequence of `integrateMeasurement` calls, and it
strictly increases across the first call made from a freshly
constructed state; across later calls it can decrease (see the
counterexample), because the congruence `F·P·Fᵀ` need not preserve the
trace. -/
theorem trace_nonneg_and_first_call_increases (ops : SO3Ops)
    (biasAcc biasOmega : V3) (accCov omegaCov intCov : M3) (u : Bool)
    (samples : List (V3 × V3 × ℚ)) (a w : V3) (dt : ℚ)
    (hInt : IsSymmPD3 intCov) (hAcc : IsSymmPD3 accCov)
    (hOmega : IsSymmPD3 omegaCov) (hdt : ∀ t ∈ samples, 0 < t.2.2)
    (hdt0 : 0 < dt) :
    0 ≤ Matrix.trace (integrateSeq ops
      (mkPreintegratedMeasurements biasAcc biasOmega accCov omegaCov intCov
        u) samples).preintMeasCov ∧
    Matrix.trace (mkPreintegratedMeasurements biasAcc biasOmega accCov
      omegaCov intCov u).preintMeasCov <
      Matrix.trace (integrateState ops
        (mkPreintegratedMeasurements biasAcc biasOmega accCov omegaCov
          intCov u) a w dt none).preintMeasCov := by
  constructor
  · refine IsSymmPSD.trace_nonneg ?_
    refine isSymmPSD_integrateSeq ops samples _ ?_ isSymmPSD_zero
      (fun t ht => le_of_lt (hdt t ht))
    exact isSymmPSD_blocks33_diag hInt.toPSD hAcc.toPSD hOmega.toPSD
  · have h0 : (mkPreintegratedMeasurements biasAcc biasOmega accCov omegaCov
        intCov u).preintMeasCov = 0 := rfl
    have hq : (mkPreintegratedMeasurements biasAcc biasOmega accCov omegaCov
        intCov u).measurementCovariance =
        blocks33 intCov 0 0 0 accCov 0 0 0 omegaCov := rfl
    rw [integrateState_preintMeasCov, h0, Matrix.mul_zero, Matrix.zero_mul,
      zero_add, hq, Matrix.trace_zero, Matrix.trace_smul, blocks33_trace,
      smul_eq_mul]
    exact mul_pos hdt0
      (add_pos (add_pos hInt.trace_pos hAcc.trace_pos) hOmega.trace_pos)

theorem trace_nonneg_and_first_call_increases_witness :
    0 ≤ Matrix.trace (integrateSeq trivialOps
      (mkPreintegratedMeasurements 0 0 1 1 1 false)
      [(0, 0, 1)]).preintMeasCov ∧
    Matrix.trace (mkPreintegratedMeasurements 0 0 1 1 1
      false).preintMeasCov <
      Matrix.trace (integrateState trivialOps
        (mkPreintegratedMeasurements 0 0 1 1 1 false)
        0 0 1 none).preintMeasCov :=
  trace_nonneg_and_first_call_increases trivialOps 0 0 1 1 1 false
    [(0, 0, 1)] 0 0 1 isSymmPD3_one isSymmPD3_one isSymmPD3_one
    (fun t ht => by rw [List.mem_singleton] at ht; subst ht; norm_num)
    one_pos

end ImuFactorSpec
